import Mathlib

/-!
Verification of the rpc_ts specification against a shallow embedding of the
source code.  Each definition is translated from the TypeScript source of the
repository (file and symbol given in its doc comment); theorems at the end of
the file settle the claims about the specification.
-/

/-- Error types reported by RPC services, from `common/rpc_common.ts`
(`RpcErrorType`).  The enum values are the strings returned by
`rpcErrorTypeString`; the constructor order is the declaration order of the
enum, which also fixes the insertion order of the status tables below. -/
inductive RpcErrorType where
  | unknown
  | canceled
  | invalidArgument
  | notFound
  | alreadyExists
  | resourceExhausted
  | permissionDenied
  | failedPrecondition
  | unimplemented
  | internal
  | unavailable
  | unauthenticated
deriving DecidableEq, Repr

/-- String value of each `RpcErrorType` enum member (the enum is a TypeScript
string enum, e.g. `canceled = 'canceled'`). -/
def rpcErrorTypeString : RpcErrorType → String
  | .unknown => "unknown"
  | .canceled => "canceled"
  | .invalidArgument => "invalidArgument"
  | .notFound => "notFound"
  | .alreadyExists => "alreadyExists"
  | .resourceExhausted => "resourceExhausted"
  | .permissionDenied => "permissionDenied"
  | .failedPrecondition => "failedPrecondition"
  | .unimplemented => "unimplemented"
  | .internal => "internal"
  | .unavailable => "unavailable"
  | .unauthenticated => "unauthenticated"

/-- HTTP status constants from `protocol/private/http_status.ts`
(`const enum HttpStatus`). -/
def HttpStatus.internalServerError : Nat := 500

def HttpStatus.badRequest : Nat := 400

def HttpStatus.notFoundStatus : Nat := 404

def HttpStatus.conflict : Nat := 409

def HttpStatus.tooManyRequests : Nat := 429

def HttpStatus.forbidden : Nat := 403

def HttpStatus.notImplemented : Nat := 501

def HttpStatus.serviceUnavailable : Nat := 503

def HttpStatus.unauthorized : Nat := 401

/-- The object literal `errorTypesToHttpStatuses` from
`protocol/grpc_web/private/http_status.ts`, as the ordered list of its
key/value entries (JavaScript object literals preserve insertion order for
string keys; the order matters when the table is inverted below). -/
def errorTypesToHttpStatusesList : List (RpcErrorType × Nat) :=
  [(.unknown, HttpStatus.internalServerError),
   (.canceled, HttpStatus.internalServerError),
   (.invalidArgument, HttpStatus.badRequest),
   (.notFound, HttpStatus.notFoundStatus),
   (.alreadyExists, HttpStatus.conflict),
   (.resourceExhausted, HttpStatus.tooManyRequests),
   (.permissionDenied, HttpStatus.forbidden),
   (.failedPrecondition, HttpStatus.badRequest),
   (.unimplemented, HttpStatus.notImplemented),
   (.internal, HttpStatus.internalServerError),
   (.unavailable, HttpStatus.serviceUnavailable),
   (.unauthenticated, HttpStatus.unauthorized)]

/-- Property access `errorTypesToHttpStatuses[errorType]`. -/
def errorTypesToHttpStatuses (errorType : RpcErrorType) : Option Nat :=
  errorTypesToHttpStatusesList.lookup errorType

/-- Models `_.fromPairs` (lodash) combined with object-spread semantics: the
resulting object maps a key to the value of the LAST pair carrying that key. -/
def fromPairs (pairs : List (Nat × RpcErrorType)) (key : Nat) :
    Option RpcErrorType :=
  (pairs.reverse.find? (fun p => p.1 == key)).map (fun p => p.2)

/-- The ordered pair list from which `httpStatusesToErrorTypes` is built in
`protocol/grpc_web/private/http_status.ts`: the inverted forward table
(`_.map` iterates the object in insertion order) followed by the extra
literal entries 413, 502 and 504. -/
def httpStatusesToErrorTypesPairs : List (Nat × RpcErrorType) :=
  (errorTypesToHttpStatusesList.map (fun p => (p.2, p.1))) ++
    [(413, .invalidArgument), (502, .unavailable), (504, .unavailable)]

/-- Property access `httpStatusesToErrorTypes[status]`. -/
def httpStatusesToErrorTypes (status : Nat) : Option RpcErrorType :=
  fromPairs httpStatusesToErrorTypesPairs status

/-- From `protocol/grpc_web/client.ts`: `guessErrorTypeFromHttpStatus`,
`httpStatusesToErrorTypes[httpStatus] || RpcErrorType.unknown` (the table
values are non-empty strings, so `||` falls through exactly when the status
is absent from the table). -/
def guessErrorTypeFromHttpStatus (httpStatus : Nat) : RpcErrorType :=
  (httpStatusesToErrorTypes httpStatus).getD .unknown

/-- The documented kind-to-HTTP-status table, written from the words of the
specification (section 6, "HTTP status <-> RPC kind mapping"); used only to
compare the table found in the source against the spec. -/
def specHttpStatusOfKind : RpcErrorType → Nat
  | .unknown => 500
  | .canceled => 500
  | .internal => 500
  | .invalidArgument => 400
  | .failedPrecondition => 400
  | .notFound => 404
  | .alreadyExists => 409
  | .resourceExhausted => 429
  | .permissionDenied => 403
  | .unimplemented => 501
  | .unavailable => 503
  | .unauthenticated => 401

/-- Conversion table from error types to gRPC status codes, from
`protocol/grpc_web/private/grpc.ts` (`errorTypesToGrpcStatuses`). -/
def errorTypesToGrpcStatuses : RpcErrorType → Nat
  | .canceled => 1
  | .unknown => 2
  | .invalidArgument => 3
  | .notFound => 5
  | .alreadyExists => 6
  | .permissionDenied => 7
  | .resourceExhausted => 8
  | .failedPrecondition => 9
  | .unimplemented => 12
  | .internal => 13
  | .unavailable => 14
  | .unauthenticated => 16

/-- Options for an exponential backoff, from `client/backoff.ts`
(`BackoffOptions`).  JavaScript numbers are modelled as rationals; the
retry-count fields are integers as used by the retrier. -/
structure BackoffOptions where
  exponentialBackoffBase : ℚ
  constantBackoffMs : ℚ
  maxBackoffMs : ℚ
  maxRetries : ℤ
  statusCodesToIgnore : List ℤ
deriving DecidableEq, Repr

/-- Default options for an exponential backoff, from `client/backoff.ts`
(`DEFAULT_BACKOFF_OPTIONS`). -/
def DEFAULT_BACKOFF_OPTIONS : BackoffOptions :=
  { exponentialBackoffBase := 2
    constantBackoffMs := 500
    maxBackoffMs := 3000
    maxRetries := -1
    statusCodesToIgnore := [] }

/-- From `client/backoff.ts` (`getBackoffMs`): computes
`Math.pow(base, retries) * constantBackoffMs` and caps it at `maxBackoffMs`
only when `maxBackoffMs > 0` and the computed value exceeds it. -/
def getBackoffMs (options : BackoffOptions) (retries : ℕ) : ℚ :=
  let backoffMs := options.exponentialBackoffBase ^ retries *
    options.constantBackoffMs
  if 0 < options.maxBackoffMs ∧ options.maxBackoffMs < backoffMs then
    options.maxBackoffMs
  else backoffMs

/-- The size in bytes of the grpc-web header in front of the chunks, from
`protocol/grpc_web/server.ts` (`HEADER_SIZE`). -/
def HEADER_SIZE : Nat := 5

/-- Flag in the header identifying trailers, from
`protocol/grpc_web/server.ts` (`TRAILER_FLAG`). -/
def TRAILER_FLAG : Nat := 0x80

/-- The four bytes written by `buf.writeUInt32BE(value, offset)` (big-endian
unsigned 32-bit; node throws if `value >= 2^32`, so the claims carry that
bound as a hypothesis). -/
def writeUInt32BE (value : Nat) : List Nat :=
  [value / 2 ^ 24 % 256, value / 2 ^ 16 % 256, value / 2 ^ 8 % 256,
   value % 256]

/-- From `protocol/grpc_web/server.ts` (`encodeFrame`): a buffer of
`HEADER_SIZE + payload.byteLength` bytes holding the flag byte, the payload
length as big-endian unsigned 32-bit, then the payload bytes. -/
def encodeFrame (firstByte : Nat) (encodedPayload : List Nat) : List Nat :=
  firstByte :: (writeUInt32BE encodedPayload.length ++ encodedPayload)

/-- Runtime JavaScript value slot: TypeScript type annotations do not exist
at runtime, so a constructor field can receive a value of any shape.  Only
the shapes that actually flow through the embedded code are represented. -/
inductive JsValue where
  | num (n : ℤ)
  | str (s : String)
  | undef
deriving DecidableEq, Repr

/-- Runtime fields of a `ClientRpcError` instance, from `client/errors.ts`:
the constructor is declared
`constructor(readonly errorType: RpcErrorType, readonly msg?: string, ...)`
and simply stores its positional arguments in the declared fields.  The
class has NO `status` field. -/
structure ClientRpcErrorData where
  errorType : JsValue
  msg : JsValue
deriving DecidableEq, Repr

/-- Application of the `ClientRpcError` constructor: at runtime the first
positional argument lands in `errorType` and the second in `msg`, whatever
their actual shapes are. -/
def mkClientRpcError (errorType : JsValue) (msg : JsValue) :
    ClientRpcErrorData :=
  { errorType := errorType, msg := msg }

/-- The JavaScript error values that flow through the embedded client code
(`client/errors.ts`): a generic `Error`, a `ClientProtocolError` (url and
message), or a `ClientRpcError`. -/
inductive JsError where
  | plain (msg : String)
  | clientProtocol (url : String) (msg : String)
  | clientRpc (data : ClientRpcErrorData)
deriving DecidableEq, Repr

/-- Events emitted by a `Stream` (`client/stream.ts`): `ready`, `message`,
`complete`, `canceled` and `error`. -/
inductive StreamEvent (M : Type) where
  | ready
  | message (m : M)
  | complete
  | canceled
  | error (err : JsError)
deriving DecidableEq, Repr

/-- From `client/service.ts` (`Service.call`): processes the events of the
underlying stream in order and returns the settlement of the returned
promise (`none` while the promise is still pending; a promise settles at
most once, so the first `accept`/`reject` wins).  The `message` variable of
the closure is the first argument of the fold; the stream messages are
always objects (hence truthy), so the `if (message)` truthiness test is the
`isSome` test on the option.  On `canceled` the source constructs
`new ClientRpcError(0, ModuleRpcCommon.RpcErrorType.canceled)`, i.e. it
passes the number 0 where the constructor expects the error type and the
string enum value `'canceled'` where it expects the optional message. -/
def Service.callLoop (method : String) {M : Type} :
    Option M → List (StreamEvent M) → Option (Except JsError M)
  | _, [] => none
  | message?, e :: rest =>
    match e with
    | .ready => Service.callLoop method message? rest
    | .message msg =>
      if message?.isSome then
        some (.error (.clientProtocol method
          "expected unary method, but got more than one message from server"))
      else Service.callLoop method (some msg) rest
    | .error err => some (.error err)
    | .complete =>
      match message? with
      | none => some (.error (.clientProtocol method
          "expected unary method, but got no message from server"))
      | some m => some (.ok m)
    | .canceled =>
      some (.error (.clientRpc (mkClientRpcError (.num 0)
        (.str (rpcErrorTypeString .canceled)))))

/-- Entry point of `Service.call` for a given event trace: the promise
executor registers the handlers with `message` initially unset. -/
def Service.call (method : String) {M : Type} (events : List (StreamEvent M)) :
    Option (Except JsError M) :=
  Service.callLoop method none events

/-- From `client/stream.ts` (`streamAsPromise`): collects the messages and
settles on the first terminal event; on `canceled` it rejects with
`new ClientRpcError(ModuleRpcCommon.RpcErrorType.canceled)` (error type in
the right position, no message). -/
def streamAsPromiseLoop {M : Type} :
    List M → List (StreamEvent M) → Option (Except JsError (List M))
  | _, [] => none
  | messages, e :: rest =>
    match e with
    | .ready => streamAsPromiseLoop messages rest
    | .message m => streamAsPromiseLoop (messages ++ [m]) rest
    | .error err => some (.error err)
    | .canceled =>
      some (.error (.clientRpc (mkClientRpcError
        (.str (rpcErrorTypeString .canceled)) .undef)))
    | .complete => some (.ok messages)

/-- Entry point of `streamAsPromise` for a given event trace. -/
def streamAsPromise {M : Type} (events : List (StreamEvent M)) :
    Option (Except JsError (List M)) :=
  streamAsPromiseLoop [] events

/-- States of a gRPC-Web client stream, from `protocol/grpc_web/client.ts`
(`GrpcWebStreamState`). -/
inductive GrpcWebStreamState where
  | initial
  | waitingForRequest
  | started
  | ready
  | canceled
  | error
  | trailersReceived
  | complete
  | endedBeforeReady
deriving DecidableEq, Repr

/-- The part of a `GrpcWebStream` instance that its `cancel()` method reads:
the state variable and whether `this.transport` has been assigned. -/
structure GrpcWebStreamSnapshot where
  state : GrpcWebStreamState
  hasTransport : Bool
deriving DecidableEq, Repr

/-- Result of one `cancel()` call: the new state, the events emitted during
the call, and whether `transport.cancel()` was invoked. -/
structure CancelResult where
  state : GrpcWebStreamState
  emitted : List (StreamEvent Unit)
  transportCancelCalled : Bool
deriving DecidableEq, Repr

/-- From `protocol/grpc_web/client.ts` (`GrpcWebStream.cancel`): cancels the
transport only if it was created and the stream is in the `started` state,
then unconditionally sets the state to `canceled` and emits `canceled`. -/
def GrpcWebStream.cancel (s : GrpcWebStreamSnapshot) : CancelResult :=
  { transportCancelCalled := s.hasTransport && (s.state == .started)
    state := .canceled
    emitted := [.canceled] }

/-- States of a retrying stream, from `client/stream_retrier.ts`
(`RetryingStreamState`). -/
inductive RetryingStreamState where
  | initial
  | started
  | ready
  | canceled
  | abandoned
  | complete
deriving DecidableEq, Repr

/-- The mutable fields of `RetryingStreamImpl` that its event handlers read
and write: the state and the `retriesSinceLastReady` counter. -/
structure RetrierState where
  state : RetryingStreamState
  retriesSinceLastReady : ℕ
deriving DecidableEq, Repr

/-- Events emitted by a `RetryingStream` (`client/stream_retrier.ts`): the
plain stream events plus `retryingError(err, retriesSinceLastReady,
abandoned)`. -/
inductive RetryingEvent (M : Type) where
  | ready
  | message (m : M)
  | complete
  | canceled
  | error (err : JsError)
  | retryingError (err : JsError) (retriesSinceLastReady : ℕ)
      (abandoned : Bool)
deriving DecidableEq, Repr

/-- Reading `err.status` on a `ClientRpcError`: `client/errors.ts` declares
no `status` field on the class, so the property access evaluates to
`undefined`. -/
def clientRpcErrorStatus (_data : ClientRpcErrorData) : Option ℤ := none

/-- The guard `err instanceof ClientRpcError &&
options.statusCodesToIgnore.includes(err.status)` of the `error` handler in
`client/stream_retrier.ts`.  An `Array.prototype.includes` call on a list of
numbers never matches `undefined`. -/
def ignoresError (options : BackoffOptions) (err : JsError) : Bool :=
  match err with
  | .clientRpc data =>
    match clientRpcErrorStatus data with
    | some status => options.statusCodesToIgnore.contains status
    | none => false
  | _ => false

/-- One upstream event processed by the handlers registered in
`RetryingStreamImpl.attempt` (`client/stream_retrier.ts`).  Returns the new
retrier state, the events emitted downstream, and whether the handler called
`cb()` (which lets the `asyncStart` loop advance).  The `error` handler
abandons when `maxRetries >= 0 && retriesSinceLastReady >= maxRetries` or
when the error is ignored by status; otherwise it emits a non-abandoned
`retryingError`, sleeps the backoff for the current counter value and
post-increments the counter. -/
def attemptStep {M : Type} (options : BackoffOptions) (s : RetrierState) :
    StreamEvent M → RetrierState × List (RetryingEvent M) × Bool
  | .ready => ({ state := .ready, retriesSinceLastReady := 0 }, [.ready], false)
  | .message m =>
    (s, if s.state == .ready then [.message m] else [], false)
  | .complete => ({ s with state := .complete }, [.complete], true)
  | .canceled => ({ s with state := .canceled }, [.canceled], true)
  | .error err =>
    if (0 ≤ options.maxRetries ∧
        options.maxRetries ≤ (s.retriesSinceLastReady : ℤ)) ∨
        ignoresError options err = true then
      ({ s with state := .abandoned },
       [.retryingError err s.retriesSinceLastReady true, .error err], true)
    else
      ({ state := .started,
         retriesSinceLastReady := s.retriesSinceLastReady + 1 },
       [.retryingError err s.retriesSinceLastReady false], true)

/-- Processes all the events of one attempt (one stream produced by the
factory); the handlers stay attached for the whole attempt.  The boolean
records whether `cb()` was called at least once. -/
def runAttempt {M : Type} (options : BackoffOptions) (s : RetrierState) :
    List (StreamEvent M) → RetrierState × List (RetryingEvent M) × Bool
  | [] => (s, [], false)
  | e :: rest =>
    let r := attemptStep options s e
    let r' := runAttempt options r.1 rest
    (r'.1, r.2.1 ++ r'.2.1, r.2.2 || r'.2.2)

/-- The loop-exit test of `RetryingStreamImpl.asyncStart`: the loop stops
once the state is `complete`, `canceled` or `abandoned`. -/
def isTerminalRetryingState (state : RetryingStreamState) : Bool :=
  state == .complete || state == .canceled || state == .abandoned

/-- The `asyncStart` loop of `RetryingStreamImpl`
(`client/stream_retrier.ts`): while the state is not terminal, call the
stream factory, run the attempt, and continue once its `cb()` fires.  The
argument lists the event traces of the successive streams the factory would
produce; the returned number counts how many times the factory was invoked.
An attempt whose trace ends without `cb()` leaves the loop awaiting
forever. -/
def runRetrying {M : Type} (options : BackoffOptions) (s : RetrierState) :
    List (List (StreamEvent M)) → RetrierState × List (RetryingEvent M) × ℕ
  | [] => (s, [], 0)
  | attemptEvents :: rest =>
    if isTerminalRetryingState s.state then (s, [], 0)
    else
      let r := runAttempt options s attemptEvents
      if r.2.2 then
        let r' := runRetrying options r.1 rest
        (r'.1, r.2.1 ++ r'.2.1, r'.2.2 + 1)
      else (r.1, r.2.1, 1)

/-- Per-call status of a server stream, from
`protocol/grpc_web/server.ts` (`enum StreamStatus` inside
`processServerStream`); `streamEnd` is the source's `end` member (a Lean
keyword). -/
inductive StreamStatus where
  | notReady
  | ready
  | streamEnd
deriving DecidableEq, Repr

/-- Server-side error values, from `server/errors.ts`:
`HandlerProtocolError(url, message)`, `ServerRpcError(errorType,
message?, unsafeTransmittedMessage?)` (only the unsafe transmitted message
may reach the wire), `ServerTransportError`, or any other thrown error. -/
inductive ServerError where
  | handlerProtocol (url : String) (msg : String)
  | serverRpc (errorType : RpcErrorType)
      (unsafeTransmittedMessage : Option String)
  | serverTransport (msg : String)
  | other (msg : String)
deriving DecidableEq, Repr

/-- A calls the server-stream handler makes on its callbacks, in order. -/
inductive HandlerAction (M : Type) where
  | onReady
  | onMessage (m : M)
deriving DecidableEq, Repr

/-- How the handler promise settles once the handler body is done. -/
inductive HandlerOutcome where
  | resolves
  | rejects (err : ServerError)
deriving DecidableEq, Repr

/-- A frame written on the HTTP response body: a message frame carries
encoded payload bytes, a trailer frame carries the metadata passed to
`codec.encodeTrailer`. -/
inductive GrpcFrame where
  | message (payload : List Nat)
  | trailer (metadata : List (String × String))
deriving DecidableEq, Repr

/-- UTF-8 encoding of a single Unicode scalar value (standard layout). -/
def utf8EncodeChar (c : Char) : List Nat :=
  let n := c.toNat
  if n < 0x80 then [n]
  else if n < 0x800 then [0xC0 + n / 64, 0x80 + n % 64]
  else if n < 0x10000 then
    [0xE0 + n / 4096, 0x80 + n / 64 % 64, 0x80 + n % 64]
  else
    [0xF0 + n / 262144, 0x80 + n / 4096 % 64, 0x80 + n / 64 % 64,
     0x80 + n % 64]

/-- Uppercase hexadecimal digit, as used by `encodeURIComponent`. -/
def uriHexDigit (n : Nat) : Char :=
  if n < 10 then Char.ofNat (48 + n) else Char.ofNat (55 + n)

/-- Characters that `encodeURIComponent` leaves unescaped: letters, digits
and `- _ . ! ~ * ( )` together with the apostrophe (code point 39). -/
def isUriUnescaped (c : Char) : Bool :=
  c.isAlpha || c.isDigit || c == '-' || c == '_' || c == '.' || c == '!' ||
    c == '~' || c == '*' || c == Char.ofNat 39 || c == '(' || c == ')'

/-- Models the `encodeURIComponent` builtin used by `encodeHeaderValue`
(`protocol/grpc_web/private/headers.ts`): unescaped characters pass
through, every other character is replaced by the `%XX` escapes of its
UTF-8 bytes. -/
def percentEncode (s : String) : String :=
  String.mk (s.data.flatMap (fun c =>
    if isUriUnescaped c then [c]
    else (utf8EncodeChar c).flatMap (fun b =>
      ['%', uriHexDigit (b / 16), uriHexDigit (b % 16)])))

/-- Metadata of an error trailer: built with `getMetadataFromGrpcWebError`
from the `GrpcWebError` that `processServerStream` derives from the caught
error (a `ServerRpcError` keeps its error type and its unsafe transmitted
message; any other error is transmitted as `internal` with no detail). -/
def errorTrailerMetadata (err : ServerError) : List (String × String) :=
  match err with
  | .serverRpc errorType unsafeTransmittedMessage =>
    ("grpc-status", Nat.repr (errorTypesToGrpcStatuses errorType)) ::
      (match unsafeTransmittedMessage with
       | some msg => [("grpc-message", percentEncode msg)]
       | none => [])
  | _ =>
    [("grpc-status", Nat.repr (errorTypesToGrpcStatuses .internal))]

/-- The per-call state threaded through the handler callbacks of
`processServerStream`: the stream status, the first `reject(err)` passed to
the wrapping promise (a promise settles at most once), and the frames
written so far. -/
structure ServerStreamSt (M : Type) where
  status : StreamStatus
  rejection : Option ServerError
  frames : List GrpcFrame
deriving DecidableEq, Repr

/-- Records a `reject(err)` call on the wrapping promise: only the first
rejection settles it. -/
def rejectPromise {M : Type} (st : ServerStreamSt M) (err : ServerError) :
    ServerStreamSt M :=
  { st with rejection := st.rejection.orElse (fun _ => some err) }

/-- One callback invocation, from `protocol/grpc_web/server.ts`
(`processServerStream`, the `onReady`/`onMessage` callbacks; the same code
appears in `protocol/grpc_web/server/server.ts`).  In the `onReady` branch
for `status === StreamStatus.ready` the source CONSTRUCTS
`new ModuleRpcServer.HandlerProtocolError(url, 'onReady called more than
once')` but does not throw it, so execution falls through to the same
status-200/state-update code as the first call. -/
def serverStreamAction {M : Type} (encode : M → Option (List Nat))
    (url : String) (st : ServerStreamSt M) :
    HandlerAction M → ServerStreamSt M
  | .onReady =>
    if st.status == .streamEnd then
      rejectPromise st
        (.handlerProtocol url "onReady called after end of streaming")
    else
      { st with status := .ready }
  | .onMessage m =>
    if st.status == .notReady then
      rejectPromise st
        (.handlerProtocol url "onMessage called before onReady")
    else if st.status == .streamEnd then
      rejectPromise st
        (.handlerProtocol url "onMessage called after end of streaming")
    else
      match encode m with
      | none =>
        rejectPromise st (.handlerProtocol url "cannot encode message")
      | some payload =>
        { st with frames := st.frames ++ [.message payload] }

/-- Result of one server-stream dispatch: the frames written on the wire and
the error the engine handled (`none` when the call ended with the success
trailer only). -/
structure ServerStreamResult where
  frames : List GrpcFrame
  handledError : Option ServerError
deriving DecidableEq, Repr

/-- From `protocol/grpc_web/server.ts` (`processServerStream`): runs the
handler's callback invocations, then settles.  When the handler promise
fulfills, its `.then` writes the success trailer (empty metadata) and
resolves; if a callback had already rejected the wrapping promise, the
`await` then throws and the catch block writes an error trailer too.  When
the handler promise rejects, the first rejection wins and the catch block
writes the corresponding error trailer. -/
def processServerStream {M : Type} (encode : M → Option (List Nat))
    (url : String) (actions : List (HandlerAction M))
    (outcome : HandlerOutcome) : ServerStreamResult :=
  let st := actions.foldl (serverStreamAction encode url)
    { status := .notReady, rejection := none, frames := [] }
  match outcome with
  | .resolves =>
    let frames := st.frames ++ [.trailer []]
    match st.rejection with
    | none => { frames := frames, handledError := none }
    | some err =>
      { frames := frames ++ [.trailer (errorTrailerMetadata err)]
        handledError := some err }
  | .rejects err =>
    let firstErr := st.rejection.getD err
    { frames := st.frames ++ [.trailer (errorTrailerMetadata firstErr)]
      handledError := some firstErr }

/-- The U+FFFD replacement character emitted by a non-fatal UTF-8 decoder. -/
def replacementChar : Char := Char.ofNat 0xFFFD

/-- Whether a code point is a Unicode scalar value (not a surrogate, within
range). -/
def isScalarCodePoint (n : Nat) : Bool :=
  (n < 0xD800 || (0xE000 ≤ n && n < 0x110000))

/-- Whether a byte is a UTF-8 continuation byte (`0x80..0xBF`). -/
def isContinuationByte (b : Nat) : Bool := 0x80 ≤ b && b < 0xC0

/-- Models the `TextDecoder('utf-8')` used by `decodeUtf8`
(`protocol/grpc_web/private/utf8.ts`): decodes well-formed sequences and,
being non-fatal, substitutes U+FFFD for malformed ones instead of
throwing.  The fuel is an upper bound on the number of bytes consumed. -/
def utf8DecodeAux : Nat → List Nat → List Char
  | 0, _ => []
  | _, [] => []
  | fuel + 1, b :: rest =>
    if b < 0x80 then Char.ofNat b :: utf8DecodeAux fuel rest
    else if b < 0xC2 then replacementChar :: utf8DecodeAux fuel rest
    else if b < 0xE0 then
      match rest with
      | b1 :: rest1 =>
        if isContinuationByte b1 then
          (Char.ofNat ((b - 0xC0) * 64 + (b1 - 0x80))) ::
            utf8DecodeAux fuel rest1
        else replacementChar :: utf8DecodeAux fuel rest
      | [] => [replacementChar]
    else if b < 0xF0 then
      match rest with
      | b1 :: b2 :: rest2 =>
        if isContinuationByte b1 && isContinuationByte b2 then
          let n := (b - 0xE0) * 4096 + (b1 - 0x80) * 64 + (b2 - 0x80)
          (if 0x800 ≤ n && isScalarCodePoint n then Char.ofNat n
           else replacementChar) :: utf8DecodeAux fuel rest2
        else replacementChar :: utf8DecodeAux fuel rest
      | _ => [replacementChar]
    else if b < 0xF5 then
      match rest with
      | b1 :: b2 :: b3 :: rest3 =>
        if isContinuationByte b1 && isContinuationByte b2 &&
            isContinuationByte b3 then
          let n := (b - 0xF0) * 262144 + (b1 - 0x80) * 4096 +
            (b2 - 0x80) * 64 + (b3 - 0x80)
          (if 0x10000 ≤ n && isScalarCodePoint n then Char.ofNat n
           else replacementChar) :: utf8DecodeAux fuel rest3
        else replacementChar :: utf8DecodeAux fuel rest
      | _ => [replacementChar]
    else replacementChar :: utf8DecodeAux fuel rest

/-- From `protocol/grpc_web/private/utf8.ts` (`decodeUtf8`): decodes an
array of UTF-8 bytes to a string with a non-fatal decoder. -/
def decodeUtf8 (bytes : List Nat) : String :=
  String.mk (utf8DecodeAux (bytes.length + 1) bytes)

/-- A JSON value as returned by the `JSON.parse` builtin.  A number literal
is kept in exact decimal form, as the integer value
`mantissa * 10 ^ exponent10`: this is lossless for every JSON literal (the
builtin itself rounds to the nearest IEEE double, which no claim depends
on). -/
inductive JsonValue where
  | null
  | bool (b : Bool)
  | num (mantissa : ℤ) (exponent10 : ℤ)
  | str (s : String)
  | arr (elements : List JsonValue)
  | obj (members : List (String × JsonValue))

/-- JSON whitespace characters. -/
def jsonWs (c : Char) : Bool :=
  c == ' ' || c == '\t' || c == '\n' || c == '\r'

/-- Drops leading JSON whitespace. -/
def skipWs : List Char → List Char
  | [] => []
  | c :: cs => if jsonWs c then skipWs cs else c :: cs

/-- Takes the leading decimal digits as a list of digit values. -/
def takeDigits : List Char → List Nat × List Char
  | [] => ([], [])
  | c :: cs =>
    if c.isDigit then
      let r := takeDigits cs
      ((c.toNat - 48) :: r.1, r.2)
    else ([], c :: cs)

/-- Value of a list of decimal digits. -/
def digitsToNat (digits : List Nat) : Nat :=
  digits.foldl (fun a d => a * 10 + d) 0

/-- Parses a JSON number after the grammar
`-? int frac? exp?` (with no leading zeros in the integer part) and returns
its exact decimal value as a mantissa and a power of ten. -/
def parseJsonNumber (cs : List Char) : Option ((ℤ × ℤ) × List Char) :=
  let (neg, cs1) :=
    match cs with
    | '-' :: cs0 => (true, cs0)
    | _ => (false, cs)
  let (intDigits, cs2) := takeDigits cs1
  match intDigits with
  | [] => none
  | d0 :: drest =>
    if d0 == 0 && !drest.isEmpty then none
    else
      let (fracDigits?, cs3) :=
        match cs2 with
        | '.' :: csf =>
          let (fracDigits, csf2) := takeDigits csf
          if fracDigits.isEmpty then (none, cs2)
          else (some fracDigits, csf2)
        | _ => (some [], cs2)
      match fracDigits? with
      | none => none
      | some fracDigits =>
        let mantissa : ℤ :=
          (if neg then -1 else 1) *
            (digitsToNat (intDigits ++ fracDigits) : ℤ)
        let fracExponent : ℤ := -(fracDigits.length : ℤ)
        match cs3 with
        | 'e' :: cse => parseJsonExponent mantissa fracExponent cse
        | 'E' :: cse => parseJsonExponent mantissa fracExponent cse
        | _ => some ((mantissa, fracExponent), cs3)
where
  /-- Parses the exponent part after `e`/`E` and adds it to the exponent
  coming from the fractional part. -/
  parseJsonExponent (mantissa fracExponent : ℤ) (cs : List Char) :
      Option ((ℤ × ℤ) × List Char) :=
    let (expNeg, cs1) :=
      match cs with
      | '-' :: cs0 => (true, cs0)
      | '+' :: cs0 => (false, cs0)
      | _ => (false, cs)
    let (expDigits, cs2) := takeDigits cs1
    if expDigits.isEmpty then none
    else
      let e : ℤ := (digitsToNat expDigits : ℤ)
      some ((mantissa, fracExponent + (if expNeg then -e else e)), cs2)

/-- Value of a hexadecimal digit, or `none`. -/
def hexDigitValue (c : Char) : Option Nat :=
  if c.isDigit then some (c.toNat - 48)
  else if 'a' ≤ c && c ≤ 'f' then some (c.toNat - 87)
  else if 'A' ≤ c && c ≤ 'F' then some (c.toNat - 55)
  else none

/-- Parses the four hexadecimal digits of a `\\uXXXX` escape. -/
def parseHex4 : List Char → Option (Nat × List Char)
  | c1 :: c2 :: c3 :: c4 :: rest =>
    match hexDigitValue c1, hexDigitValue c2, hexDigitValue c3,
        hexDigitValue c4 with
    | some h1, some h2, some h3, some h4 =>
      some (((h1 * 16 + h2) * 16 + h3) * 16 + h4, rest)
    | _, _, _, _ => none
  | _ => none

/-- Parses the body of a JSON string (the opening quote already consumed),
handling the escape sequences accepted by `JSON.parse`; surrogate pairs are
combined and a lone surrogate becomes U+FFFD (a Lean `Char` holds scalar
values only). -/
def parseJsonStringAux : Nat → List Char → List Char →
    Option (String × List Char)
  | 0, _, _ => none
  | fuel + 1, acc, cs =>
    match cs with
    | [] => none
    | c :: rest =>
      if c == '"' then some (String.mk acc.reverse, rest)
      else if c == '\\' then
        match rest with
        | [] => none
        | e :: rest1 =>
          if e == '"' then parseJsonStringAux fuel ('"' :: acc) rest1
          else if e == '\\' then parseJsonStringAux fuel ('\\' :: acc) rest1
          else if e == '/' then parseJsonStringAux fuel ('/' :: acc) rest1
          else if e == 'b' then
            parseJsonStringAux fuel (Char.ofNat 8 :: acc) rest1
          else if e == 'f' then
            parseJsonStringAux fuel (Char.ofNat 12 :: acc) rest1
          else if e == 'n' then parseJsonStringAux fuel ('\n' :: acc) rest1
          else if e == 'r' then parseJsonStringAux fuel ('\r' :: acc) rest1
          else if e == 't' then parseJsonStringAux fuel ('\t' :: acc) rest1
          else if e == 'u' then
            match parseHex4 rest1 with
            | none => none
            | some (n, rest2) =>
              if 0xD800 ≤ n && n < 0xDC00 then
                match rest2 with
                | '\\' :: 'u' :: rest3 =>
                  match parseHex4 rest3 with
                  | some (n2, rest4) =>
                    if 0xDC00 ≤ n2 && n2 < 0xE000 then
                      let cp := 0x10000 + (n - 0xD800) * 1024 + (n2 - 0xDC00)
                      parseJsonStringAux fuel (Char.ofNat cp :: acc) rest4
                    else
                      parseJsonStringAux fuel (replacementChar :: acc)
                        ('\\' :: 'u' :: rest3)
                  | none =>
                    parseJsonStringAux fuel (replacementChar :: acc)
                      ('\\' :: 'u' :: rest3)
                | _ =>
                  parseJsonStringAux fuel (replacementChar :: acc) rest2
              else if 0xDC00 ≤ n && n < 0xE000 then
                parseJsonStringAux fuel (replacementChar :: acc) rest2
              else parseJsonStringAux fuel (Char.ofNat n :: acc) rest2
          else none
      else if c.toNat < 0x20 then none
      else parseJsonStringAux fuel (c :: acc) rest

mutual

/-- Recursive-descent model of the `JSON.parse` builtin (value level).
Returns the parsed value and the unconsumed input, or `none` where
`JSON.parse` would throw a `SyntaxError`. -/
def parseJsonValue : Nat → List Char → Option (JsonValue × List Char)
  | 0, _ => none
  | fuel + 1, cs =>
    match skipWs cs with
    | [] => none
    | c :: cs1 =>
      if c == Char.ofNat 123 then parseJsonMembersFirst fuel cs1
      else if c == '[' then parseJsonElementsFirst fuel cs1
      else if c == '"' then
        match parseJsonStringAux (cs1.length + 1) [] cs1 with
        | some (s, rest) => some (.str s, rest)
        | none => none
      else if c == 't' then
        match cs1 with
        | 'r' :: 'u' :: 'e' :: rest => some (.bool true, rest)
        | _ => none
      else if c == 'f' then
        match cs1 with
        | 'a' :: 'l' :: 's' :: 'e' :: rest => some (.bool false, rest)
        | _ => none
      else if c == 'n' then
        match cs1 with
        | 'u' :: 'l' :: 'l' :: rest => some (.null, rest)
        | _ => none
      else
        match parseJsonNumber (c :: cs1) with
        | some ((mantissa, exponent10), rest) =>
          some (.num mantissa exponent10, rest)
        | none => none

/-- Parses the inside of an array, right after the opening bracket. -/
def parseJsonElementsFirst (fuel : Nat) (cs : List Char) :
    Option (JsonValue × List Char) :=
  match fuel with
  | 0 => none
  | fuel + 1 =>
    match skipWs cs with
    | ']' :: rest => some (.arr [], rest)
    | _ =>
      match parseJsonValue fuel cs with
      | none => none
      | some (v, rest) => parseJsonElementsRest fuel [v] rest

/-- Parses the continuation of an array after a parsed element. -/
def parseJsonElementsRest (fuel : Nat) (acc : List JsonValue)
    (cs : List Char) : Option (JsonValue × List Char) :=
  match fuel with
  | 0 => none
  | fuel + 1 =>
    match skipWs cs with
    | ']' :: rest => some (.arr acc.reverse, rest)
    | ',' :: rest =>
      match parseJsonValue fuel rest with
      | none => none
      | some (v, rest1) => parseJsonElementsRest fuel (v :: acc) rest1
    | _ => none

/-- Parses the inside of an object, right after the opening brace. -/
def parseJsonMembersFirst (fuel : Nat) (cs : List Char) :
    Option (JsonValue × List Char) :=
  match fuel with
  | 0 => none
  | fuel + 1 =>
    match skipWs cs with
    | c :: rest =>
      if c == Char.ofNat 125 then some (.obj [], rest)
      else parseJsonMember fuel [] (c :: rest)
    | [] => none

/-- Parses one `"key": value` member and continues. -/
def parseJsonMember (fuel : Nat) (acc : List (String × JsonValue))
    (cs : List Char) : Option (JsonValue × List Char) :=
  match fuel with
  | 0 => none
  | fuel + 1 =>
    match skipWs cs with
    | '"' :: rest =>
      match parseJsonStringAux (rest.length + 1) [] rest with
      | none => none
      | some (key, rest1) =>
        match skipWs rest1 with
        | ':' :: rest2 =>
          match parseJsonValue fuel rest2 with
          | none => none
          | some (v, rest3) => parseJsonMembersRest fuel ((key, v) :: acc) rest3
        | _ => none
    | _ => none

/-- Parses the continuation of an object after a parsed member. -/
def parseJsonMembersRest (fuel : Nat) (acc : List (String × JsonValue))
    (cs : List Char) : Option (JsonValue × List Char) :=
  match fuel with
  | 0 => none
  | fuel + 1 =>
    match skipWs cs with
    | c :: rest =>
      if c == Char.ofNat 125 then some (.obj acc.reverse, rest)
      else if c == ',' then parseJsonMember fuel acc rest
      else none
    | [] => none

end

/-- The `JSON.parse` builtin on a whole string: parses one value and
requires only whitespace to remain. -/
def jsonParse (s : String) : Option JsonValue :=
  match parseJsonValue (3 * s.data.length + 3) s.data with
  | none => none
  | some (v, rest) => if (skipWs rest).isEmpty then some v else none

/-- From `protocol/grpc_web/common/json_codec.ts`
(`GrpcWebJsonCodec.decodeRequest`): `JSON.parse(decodeUtf8(message))`, with
no inspection of the shape of the parsed value. -/
def GrpcWebJsonCodec.decodeRequest (_method : String) (message : List Nat) :
    Option JsonValue :=
  jsonParse (decodeUtf8 message)

/-- From `protocol/grpc_web/common/json_codec.ts`
(`GrpcWebJsonCodec.decodeMessage`): `JSON.parse(decodeUtf8(encodedMessage))`,
again with no inspection of the shape of the parsed value. -/
def GrpcWebJsonCodec.decodeMessage (_method : String)
    (encodedMessage : List Nat) : Option JsonValue :=
  jsonParse (decodeUtf8 encodedMessage)

/-- A concrete `ClientRpcError` of kind `invalidArgument`, correctly
constructed (error type in the first position); used as a concrete upstream
error below. -/
def invalidArgumentClientRpcError : JsError :=
  .clientRpc (mkClientRpcError
    (.str (rpcErrorTypeString .invalidArgument)) .undef)

/-- No error is ever ignored by the retrier guard: the current
`ClientRpcError` class has no `status` field, so
`statusCodesToIgnore.includes(err.status)` compares numbers against
`undefined`. -/
theorem ignoresError_eq_false (options : BackoffOptions) (err : JsError) :
    ignoresError options err = false := by
  cases err <;> rfl

/-- C1.  The claim states that a `cancel()` call after a terminal event is a
no-op.  Counterexample: `GrpcWebStream.cancel` called on a stream that has
already completed (or that is already canceled) still emits a `canceled`
event. -/
theorem cancel_after_terminal_counterexample :
    GrpcWebStream.cancel { state := .complete, hasTransport := true } =
      { state := .canceled, emitted := [.canceled],
        transportCancelCalled := false } ∧
    (GrpcWebStream.cancel
      { state := .canceled, hasTransport := true }).emitted =
      [.canceled] ∧
    (GrpcWebStream.cancel
      { state := .complete, hasTransport := true }).emitted ≠
      ([] : List (StreamEvent Unit)) := by
  refine ⟨rfl, rfl, by simp [GrpcWebStream.cancel]⟩

/-- C1 (amended).  `cancel()` always sets the state to `canceled` and emits
exactly one `canceled` event, whatever the current state is — in particular
a second `cancel()` or a `cancel()` after `complete`/`error` emits another
`canceled` event; the transport is aborted exactly when it exists and the
stream is in the `started` state. -/
theorem cancel_always_emits_canceled (s : GrpcWebStreamSnapshot) :
    (GrpcWebStream.cancel s).emitted = [StreamEvent.canceled] ∧
    (GrpcWebStream.cancel s).state = GrpcWebStreamState.canceled ∧
    ((GrpcWebStream.cancel s).transportCancelCalled = true ↔
      s.hasTransport = true ∧ s.state = GrpcWebStreamState.started) := by
  refine ⟨rfl, rfl, ?_⟩
  cases s with
  | mk st ht =>
    simp [GrpcWebStream.cancel, Bool.and_eq_true, beq_iff_eq]

/-- C2.  On `canceled`, `Service.call` rejects with
`new ClientRpcError(0, RpcErrorType.canceled)`, which under the constructor
`constructor(errorType, msg?, context?)` of `client/errors.ts` stores the
number 0 in `errorType` and the string `'canceled'` in `msg` — not an error
whose `errorType` is the `canceled` kind, contradicting the repository's own
test (`client/__tests__/service.test.ts`, "throws if canceled").  The
adjacent adapter `streamAsPromise` constructs the error correctly. -/
theorem call_canceled_rejects_with_shifted_arguments :
    Service.call "unary" ([.canceled] : List (StreamEvent Unit)) =
      some (.error (.clientRpc (mkClientRpcError (.num 0)
        (.str "canceled")))) ∧
    streamAsPromise ([.canceled] : List (StreamEvent Unit)) =
      some (.error (.clientRpc (mkClientRpcError
        (.str (rpcErrorTypeString .canceled)) .undef))) ∧
    JsValue.num 0 ≠ JsValue.str (rpcErrorTypeString RpcErrorType.canceled) := by
  refine ⟨rfl, rfl, by simp⟩

/-- C6.  The kind-to-HTTP-status table of the source equals the documented
table of the specification, and every HTTP status absent from the inbound
table decodes to the `unknown` kind. -/
theorem http_status_table_matches_spec :
    (∀ k : RpcErrorType,
      errorTypesToHttpStatuses k = some (specHttpStatusOfKind k)) ∧
    (∀ s : Nat, httpStatusesToErrorTypes s = none →
      guessErrorTypeFromHttpStatus s = RpcErrorType.unknown) := by
  constructor
  · intro k; cases k <;> rfl
  · intro s h
    simp [guessErrorTypeFromHttpStatus, h]

/-- C6 (witness).  The status 418 is absent from the inbound table and
decodes to `unknown`; instantiates `http_status_table_matches_spec`. -/
theorem http_status_table_witness :
    httpStatusesToErrorTypes 418 = none ∧
    guessErrorTypeFromHttpStatus 418 = RpcErrorType.unknown :=
  ⟨by decide, http_status_table_matches_spec.2 418 (by decide)⟩

/-- C10.  Inverting the forward table with last-entry-wins semantics maps
HTTP 400 to `failedPrecondition` (although `invalidArgument` also maps to
400) and HTTP 500 to `internal` (although `unknown` and `canceled` also map
to 500). -/
theorem inbound_table_keeps_last_entry :
    httpStatusesToErrorTypes 400 = some RpcErrorType.failedPrecondition ∧
    httpStatusesToErrorTypes 500 = some RpcErrorType.internal ∧
    errorTypesToHttpStatuses RpcErrorType.invalidArgument = some 400 ∧
    errorTypesToHttpStatuses RpcErrorType.failedPrecondition = some 400 ∧
    errorTypesToHttpStatuses RpcErrorType.unknown = some 500 ∧
    errorTypesToHttpStatuses RpcErrorType.canceled = some 500 ∧
    errorTypesToHttpStatuses RpcErrorType.internal = some 500 := by
  decide

/-- C9.  `encodeFrame` produces `5 + |payload|` bytes: the flag byte, the
payload length as a big-endian unsigned 32-bit integer (the four header
bytes are valid bytes and decode back to the length), then the payload;
the trailer flag constant is 0x80 and messages are framed with flag 0. -/
theorem encodeFrame_layout (f : Nat) (p : List Nat)
    (hp : p.length < 2 ^ 32) :
    (encodeFrame f p).length = 5 + p.length ∧
    (encodeFrame f p).take 1 = [f] ∧
    ((encodeFrame f p).drop 1).take 4 = writeUInt32BE p.length ∧
    (p.length / 2 ^ 24 % 256) * 2 ^ 24 + (p.length / 2 ^ 16 % 256) * 2 ^ 16 +
      (p.length / 2 ^ 8 % 256) * 2 ^ 8 + p.length % 256 = p.length ∧
    (∀ b ∈ writeUInt32BE p.length, b < 256) ∧
    (encodeFrame f p).drop 5 = p ∧
    TRAILER_FLAG = 0x80 := by
  refine ⟨?_, rfl, rfl, ?_, ?_, rfl, rfl⟩
  · simp only [encodeFrame, writeUInt32BE, List.length_cons,
      List.length_append, List.length_cons, List.length_nil]
    omega
  · omega
  · intro b hb
    simp only [writeUInt32BE, List.mem_cons, List.not_mem_nil,
      or_false] at hb
    rcases hb with h | h | h | h <;> subst h <;> omega

/-- C9 (witness).  Instantiates `encodeFrame_layout` on the trailer flag and
a three-byte payload. -/
theorem encodeFrame_layout_witness :
    (([1, 2, 3] : List Nat).length < 2 ^ 32) ∧
    (encodeFrame 128 [1, 2, 3]).length = 5 + ([1, 2, 3] : List Nat).length :=
  ⟨by decide, (encodeFrame_layout 128 [1, 2, 3] (by decide)).1⟩

/-- C8.  The claim states `getBackoffMs = min(maxBackoffMs, constant *
base ^ retries)` for every option record.  Counterexample: with
`maxBackoffMs = 0` (no cap: the code only caps when `maxBackoffMs > 0`) the
code returns the uncapped 500 while the claimed formula gives 0. -/
theorem getBackoffMs_min_counterexample :
    getBackoffMs
        { exponentialBackoffBase := 2, constantBackoffMs := 500,
          maxBackoffMs := 0, maxRetries := -1,
          statusCodesToIgnore := [] } 0 = 500 ∧
    min ((0 : ℚ))
        ((500 : ℚ) * (2 : ℚ) ^ (0 : ℕ)) = 0 ∧
    (500 : ℚ) ≠ 0 := by
  refine ⟨by norm_num [getBackoffMs], by norm_num, by norm_num⟩

/-- C8 (amended).  `getBackoffMs` equals
`min(maxBackoffMs, constantBackoffMs * base ^ retries)` whenever
`maxBackoffMs > 0`; when `maxBackoffMs ≤ 0` the backoff is uncapped and
equals `constantBackoffMs * base ^ retries`. -/
theorem getBackoffMs_eq_min_of_pos_max (o : BackoffOptions) (n : ℕ) :
    getBackoffMs o n =
      if 0 < o.maxBackoffMs then
        min o.maxBackoffMs (o.constantBackoffMs * o.exponentialBackoffBase ^ n)
      else o.constantBackoffMs * o.exponentialBackoffBase ^ n := by
  unfold getBackoffMs
  rw [mul_comm (o.exponentialBackoffBase ^ n) o.constantBackoffMs]
  by_cases hpos : 0 < o.maxBackoffMs
  · by_cases hlt :
      o.maxBackoffMs < o.constantBackoffMs * o.exponentialBackoffBase ^ n
    · rw [if_pos ⟨hpos, hlt⟩, if_pos hpos, min_eq_left hlt.le]
    · rw [if_neg (by tauto), if_pos hpos,
        min_eq_right (le_of_not_lt hlt)]
  · rw [if_neg (by tauto), if_neg hpos]

/-- C7.  The claim states that `decodeRequest`/`decodeMessage` reject byte
inputs whose JSON root is not an object.  Counterexample: the bytes of the
array literal `[1]` decode to the array value and the bytes of the bare
scalar `5` decode to the number value; nothing is rejected. -/
theorem json_decode_accepts_non_object_roots :
    GrpcWebJsonCodec.decodeRequest "m" [91, 49, 93] =
      some (JsonValue.arr [JsonValue.num 1 0]) ∧
    GrpcWebJsonCodec.decodeMessage "m" [53] = some (JsonValue.num 5 0) ∧
    GrpcWebJsonCodec.decodeRequest "m" [91, 49, 93] ≠ none := by
  have h1 : GrpcWebJsonCodec.decodeRequest "m" [91, 49, 93] =
      some (JsonValue.arr [JsonValue.num 1 0]) := rfl
  exact ⟨h1, rfl, by rw [h1]; exact Option.some_ne_none _⟩

/-- C7 (amended).  The JSON codec's `decodeRequest` and `decodeMessage` are
exactly `JSON.parse` over the UTF-8 decoding of the bytes: whenever the
bytes parse as JSON the decode succeeds with the parsed value, whatever the
shape of the root (object, array or bare scalar). -/
theorem json_decode_is_json_parse (method : String) (bytes : List Nat)
    (v : JsonValue) (h : jsonParse (decodeUtf8 bytes) = some v) :
    GrpcWebJsonCodec.decodeRequest method bytes = some v ∧
    GrpcWebJsonCodec.decodeMessage method bytes = some v :=
  ⟨h, h⟩

/-- C7 (witness).  Instantiates `json_decode_is_json_parse` on the bytes of
the non-object root `[1]`. -/
theorem json_decode_witness :
    jsonParse (decodeUtf8 [91, 49, 93]) =
      some (JsonValue.arr [JsonValue.num 1 0]) ∧
    GrpcWebJsonCodec.decodeRequest "m" [91, 49, 93] =
      some (JsonValue.arr [JsonValue.num 1 0]) :=
  ⟨rfl, (json_decode_is_json_parse "m" [91, 49, 93]
    (JsonValue.arr [JsonValue.num 1 0]) rfl).1⟩

/-- C3.  A second `onReady` call is NOT detected: the
`HandlerProtocolError('onReady called more than once')` is constructed but
never thrown (`protocol/grpc_web/server.ts` and
`protocol/grpc_web/cli/process.ts`), so a handler that calls `onReady`
twice and then resolves produces exactly the same wire output as a
well-behaved handler — a success trailer, no error — whereas a rejecting
handler promise or another callback misuse (here `onMessage` before
`onReady`) does end the call with an error trailer. -/
theorem double_onReady_not_detected (encode : Unit → Option (List Nat))
    (url : String) :
    processServerStream encode url [.onReady, .onReady] .resolves =
      processServerStream encode url [.onReady] .resolves ∧
    processServerStream encode url [.onReady, .onReady] .resolves =
      { frames := [.trailer []], handledError := none } ∧
    processServerStream encode url [.onReady]
        (.rejects (.serverRpc .resourceExhausted none)) =
      { frames := [.trailer [("grpc-status", "8")]],
        handledError := some (.serverRpc .resourceExhausted none) } ∧
    processServerStream (fun _ : Unit => some []) url [.onMessage ()]
        .resolves =
      { frames := [.trailer [], .trailer [("grpc-status", "13")]],
        handledError :=
          some (.handlerProtocol url "onMessage called before onReady") } := by
  exact ⟨rfl, rfl, rfl, rfl⟩

/-- C4.  The claim states that with default options an error of kind
`invalidArgument` is non-retryable (abandon and re-emit).  Counterexample:
with `DEFAULT_BACKOFF_OPTIONS` (maxRetries = -1, statusCodesToIgnore = [])
the error handler takes the retry branch — it emits
`retryingError(err, 0, false)`, no `error` event — and the factory is
invoked again (two attempts are consumed). -/
theorem default_options_retry_invalidArgument_counterexample :
    attemptStep DEFAULT_BACKOFF_OPTIONS
        { state := .started, retriesSinceLastReady := 0 }
        (StreamEvent.error invalidArgumentClientRpcError :
          StreamEvent Unit) =
      ({ state := .started, retriesSinceLastReady := 1 },
       [.retryingError invalidArgumentClientRpcError 0 false], true) ∧
    runRetrying DEFAULT_BACKOFF_OPTIONS
        { state := .started, retriesSinceLastReady := 0 }
        ([[.error invalidArgumentClientRpcError], [.complete]] :
          List (List (StreamEvent Unit))) =
      ({ state := .complete, retriesSinceLastReady := 1 },
       [.retryingError invalidArgumentClientRpcError 0 false, .complete],
       2) ∧
    ([.retryingError invalidArgumentClientRpcError 0 false] :
        List (RetryingEvent Unit)) ≠
      [.retryingError invalidArgumentClientRpcError 0 true,
       .error invalidArgumentClientRpcError] := by
  refine ⟨rfl, rfl, by simp⟩

/-- C4 (amended).  There is no `isRetryable` predicate in the code: with
default options every upstream error whatsoever is retried — the handler
emits `retryingError(err, n, false)` (never an `error` event), resets the
state to `started`, increments the counter, and the `asyncStart` loop
invokes the stream factory again.  Abandonment requires `maxRetries ≥ 0`
with the counter exhausted, or a `ClientRpcError` whose `status` is listed
in `statusCodesToIgnore` — a condition that never fires (the default list
is empty, and the class has no `status` field). -/
theorem default_options_always_retry (e : JsError) (n : Nat)
    (st : RetryingStreamState) :
    attemptStep DEFAULT_BACKOFF_OPTIONS
        { state := st, retriesSinceLastReady := n }
        (StreamEvent.error e : StreamEvent Unit) =
      ({ state := .started, retriesSinceLastReady := n + 1 },
       [.retryingError e n false], true) ∧
    runRetrying DEFAULT_BACKOFF_OPTIONS
        { state := .started, retriesSinceLastReady := n }
        ([[.error e], [.complete]] : List (List (StreamEvent Unit))) =
      ({ state := .complete, retriesSinceLastReady := n + 1 },
       [.retryingError e n false, .complete], 2) := by
  constructor
  · cases e <;> rfl
  · cases e <;> rfl

/-- Abandon branch of the retrier's `error` handler: taken when
`maxRetries = m ≥ 0` and the counter has reached `m`. -/
theorem attemptStep_error_abandon {M : Type} (opts : BackoffOptions) (m : ℕ)
    (hm : opts.maxRetries = (m : ℤ)) (s : RetrierState) (e : JsError)
    (hk : m ≤ s.retriesSinceLastReady) :
    attemptStep opts s (StreamEvent.error e : StreamEvent M) =
      ({ s with state := .abandoned },
       [.retryingError e s.retriesSinceLastReady true, .error e], true) := by
  simp only [attemptStep]
  rw [if_pos]
  exact Or.inl ⟨by rw [hm]; exact_mod_cast Nat.zero_le m,
    by rw [hm]; exact_mod_cast hk⟩

/-- Retry branch of the retrier's `error` handler: taken while the counter
is below `maxRetries = m`. -/
theorem attemptStep_error_retry {M : Type} (opts : BackoffOptions) (m : ℕ)
    (hm : opts.maxRetries = (m : ℤ)) (s : RetrierState) (e : JsError)
    (hk : s.retriesSinceLastReady < m) :
    attemptStep opts s (StreamEvent.error e : StreamEvent M) =
      ({ state := .started,
         retriesSinceLastReady := s.retriesSinceLastReady + 1 },
       [.retryingError e s.retriesSinceLastReady false], true) := by
  simp only [attemptStep]
  rw [if_neg]
  rintro (⟨-, hle⟩ | hig)
  · rw [hm] at hle
    exact absurd (by exact_mod_cast hle) (Nat.not_le.mpr hk)
  · rw [ignoresError_eq_false] at hig
    exact Bool.false_ne_true hig

/-- An attempt whose upstream emits a single event behaves as one handler
invocation. -/
theorem runAttempt_single {M : Type} (opts : BackoffOptions)
    (s : RetrierState) (e : StreamEvent M) :
    runAttempt opts s [e] = attemptStep opts s e := by
  simp only [runAttempt, List.append_nil, Bool.or_false]

/-- One iteration of the `asyncStart` loop from a non-terminal state. -/
theorem runRetrying_cons_not_terminal {M : Type} (opts : BackoffOptions)
    (s : RetrierState) (att : List (StreamEvent M))
    (rest : List (List (StreamEvent M)))
    (h : isTerminalRetryingState s.state = false) :
    runRetrying opts s (att :: rest) =
      (let r := runAttempt opts s att
       if r.2.2 then
         let r' := runRetrying opts r.1 rest
         (r'.1, r.2.1 ++ r'.2.1, r'.2.2 + 1)
       else (r.1, r.2.1, 1)) := by
  simp only [runRetrying, h, Bool.false_eq_true, if_false]

/-- Run of the retrier over attempts that all error, starting from counter
`k`: the counters of the emitted `retryingError` events continue from `k`,
abandonment happens exactly on the attempt whose counter reaches
`maxRetries = m`, and it is followed by a single `error` event. -/
theorem runRetrying_allErrors_aux {M : Type} (opts : BackoffOptions) (m : ℕ)
    (hm : opts.maxRetries = (m : ℤ)) :
    ∀ (errs : List JsError) (k : ℕ), k + errs.length = m + 1 →
    (hne : errs ≠ []) →
    runRetrying opts { state := .started, retriesSinceLastReady := k }
        (errs.map fun e => ([StreamEvent.error e] : List (StreamEvent M))) =
      ({ state := .abandoned, retriesSinceLastReady := m },
       (errs.enumFrom k).map (fun p =>
         RetryingEvent.retryingError p.2 p.1 (decide (p.1 = m))) ++
         [RetryingEvent.error (errs.getLast hne)],
       errs.length) := by
  intro errs
  induction errs with
  | nil => intro k hk hne; exact absurd rfl hne
  | cons e rest ih =>
    intro k hk hne
    cases rest with
    | nil =>
      have hkm : m = k := by
        simp only [List.length_cons, List.length_nil] at hk
        omega
      subst hkm
      simp only [List.map_cons, List.map_nil]
      rw [runRetrying_cons_not_terminal opts _ _ _ (by rfl),
        runAttempt_single,
        attemptStep_error_abandon opts m hm _ e (le_refl m)]
      simp [runRetrying, List.enumFrom, List.getLast]
    | cons e2 rest2 =>
      have hklt : k < m := by
        simp only [List.length_cons] at hk
        omega
      have hk2 : (k + 1) + (e2 :: rest2).length = m + 1 := by
        simp only [List.length_cons] at hk ⊢
        omega
      have hne2 : (e2 :: rest2) ≠ [] := by simp
      simp only [List.map_cons]
      rw [runRetrying_cons_not_terminal opts _ _ _ (by rfl),
        runAttempt_single,
        attemptStep_error_retry opts m hm _ e hklt]
      have hih := ih (k + 1) hk2 hne2
      simp only [List.map_cons] at hih
      simp only [hih]
      simp [List.enumFrom, List.getLast_cons,
        decide_eq_false (Nat.ne_of_lt hklt)]

/-- C5.  With `maxRetries = m ≥ 0` and `m + 1` attempts that all error
(no intervening `ready`), the retrier emits exactly one `retryingError` per
attempt, carrying the counters `0, 1, ..., m` in order (the entry at index
`i` of the enumeration carries counter `i`), with `abandoned = true`
exactly on the last one (`i = m`), followed by exactly one `error` event
carrying the last attempt's error; the final state is `abandoned` and the
factory was invoked exactly `m + 1` times.  Moreover, processing a `ready`
event always resets the counter to zero (and emits `ready`). -/
theorem retrier_abandons_after_maxRetries {M : Type} (opts : BackoffOptions)
    (m : ℕ) (errs : List JsError)
    (hm : opts.maxRetries = (m : ℤ)) (hlen : errs.length = m + 1)
    (hne : errs ≠ []) :
    runRetrying opts { state := .started, retriesSinceLastReady := 0 }
        (errs.map fun e => ([StreamEvent.error e] : List (StreamEvent M))) =
      ({ state := .abandoned, retriesSinceLastReady := m },
       (errs.enumFrom 0).map (fun p =>
         RetryingEvent.retryingError p.2 p.1 (decide (p.1 = m))) ++
         [RetryingEvent.error (errs.getLast hne)],
       errs.length) ∧
    (∀ s : RetrierState,
      attemptStep opts s (StreamEvent.ready : StreamEvent M) =
        ({ state := .ready, retriesSinceLastReady := 0 },
         [.ready], false)) := by
  refine ⟨runRetrying_allErrors_aux opts m hm errs 0 (by omega) hne, ?_⟩
  intro s
  rfl

/-- C5 (witness).  Instantiates `retrier_abandons_after_maxRetries` with
`maxRetries = 1` and two erroring attempts: two `retryingError` events with
counters 0 and 1, abandoned on the second, then one `error` event. -/
theorem retrier_abandons_witness :
    runRetrying
        { exponentialBackoffBase := 2, constantBackoffMs := 500,
          maxBackoffMs := 3000, maxRetries := 1,
          statusCodesToIgnore := [] }
        { state := .started, retriesSinceLastReady := 0 }
        ([[.error (.plain "a")], [.error (.plain "b")]] :
          List (List (StreamEvent Unit))) =
      ({ state := .abandoned, retriesSinceLastReady := 1 },
       [.retryingError (.plain "a") 0 false,
        .retryingError (.plain "b") 1 true,
        .error (.plain "b")], 2) :=
  (@retrier_abandons_after_maxRetries Unit
    { exponentialBackoffBase := 2, constantBackoffMs := 500,
      maxBackoffMs := 3000, maxRetries := 1, statusCodesToIgnore := [] }
    1 [.plain "a", .plain "b"] rfl rfl (by simp)).1
